import Mathlib

/-!
Verification of the forecast-and-backtest pipeline of the Market Minds
dashboard (`app.py`).

The program is a linear script over pandas data frames.  We embed the
parts the specification talks about:

* the pandas floating-point behaviours the scoring block relies on
  (division by zero producing `inf`/`NaN`, `Series.mean` skipping `NaN`
  and returning `NaN` on an empty series) as an explicit value type
  `FVal`;
* the backtest tab (`app.py` lines 194-218): split guard, train/test
  split, inner join on `ds`, MAE, MAPE and the accuracy-tier branch;
* the forecast tab's control path (lines 127-172): the empty-data
  warning branch, the header's `iloc[-2]` access, and the unconditional
  `Prophet.fit` call;
* the rolling simple moving average of `load_data` (lines 118-119);
* Prophet's `make_future_dataframe`, modelled from the spec since the
  library is an external collaborator.

Prices and predictions are modelled as rationals; timestamps as integers
(days).  The fitted model is abstracted as a function parameter, so every
theorem about the pipeline holds for an arbitrary model.
-/

/-- A pandas/NumPy double as the scoring block observes it: a finite
rational, `+inf`, `-inf`, or `NaN`.  The backtest arithmetic only ever
meets these four classes. -/
inductive FVal where
  | fin (q : ℚ)
  | posinf
  | neginf
  | nan
deriving DecidableEq

/-- IEEE addition on the classes of `FVal` (used by the summation inside
`Series.mean`): finite values add, an infinity absorbs finite values,
opposite infinities and `NaN` give `NaN`. -/
def FVal.add : FVal → FVal → FVal
  | .fin a, .fin b => .fin (a + b)
  | .fin _, .posinf => .posinf
  | .posinf, .fin _ => .posinf
  | .posinf, .posinf => .posinf
  | .fin _, .neginf => .neginf
  | .neginf, .fin _ => .neginf
  | .neginf, .neginf => .neginf
  | _, _ => .nan

/-- Division of an `FVal` by a positive count (the `/ len` step of
`Series.mean`; only ever called with a nonzero count). -/
def FVal.divNat : FVal → Nat → FVal
  | .fin q, n => .fin (q / n)
  | .posinf, _ => .posinf
  | .neginf, _ => .neginf
  | .nan, _ => .nan

/-- Multiplication by the positive constant 100 (the `* 100` of the MAPE
line). -/
def FVal.mul100 : FVal → FVal
  | .fin q => .fin (100 * q)
  | .posinf => .posinf
  | .neginf => .neginf
  | .nan => .nan

/-- IEEE comparison `x < c` against a finite constant, as Python's `<`
behaves on floats: `NaN < c` is false. -/
def FVal.ltc : FVal → ℚ → Bool
  | .fin q, c => decide (q < c)
  | .posinf, _ => false
  | .neginf, _ => true
  | .nan, _ => false

/-- NumPy division of finite doubles `a / b`: finite quotient when
`b ≠ 0`, else `±inf` or `NaN` (for `0 / 0`) instead of an error. -/
def pdivF (a b : ℚ) : FVal :=
  if b = 0 then (if a = 0 then .nan else if 0 < a then .posinf else .neginf)
  else .fin (a / b)

/-- `Series.mean()` of pandas: `NaN` entries are skipped (`skipna`
defaults to true); the mean of what remains, or `NaN` when nothing
remains (in particular on an empty series). -/
def pmean (xs : List FVal) : FVal :=
  let ys := xs.filter (· ≠ FVal.nan)
  if ys.isEmpty then FVal.nan else (ys.foldl FVal.add (FVal.fin 0)).divNat ys.length

/-- A row of `df_train`/`test_set`: timestamp `ds` (day number) and
actual close `y`. -/
structure TP where
  ds : ℤ
  y : ℚ
deriving DecidableEq

/-- A row of `forecast_bt[['ds', 'yhat']]`: timestamp and predicted
value. -/
structure PredRow where
  ds : ℤ
  yhat : ℚ
deriving DecidableEq

/-- `pd.merge(test_set, forecast_bt[['ds','yhat']], on='ds')` — the
default inner join: each test row is kept, paired with the prediction
carrying the same `ds`, exactly when such a prediction exists
(timestamps of `test_set` and of the predictions are unique). -/
def innerJoin (testSet : List TP) (preds : List PredRow) : List (ℚ × ℚ) :=
  testSet.filterMap fun t =>
    (preds.find? fun p => p.ds = t.ds).map fun p => (t.y, p.yhat)

/-- `combined['AbsError'] = (combined['y'] - combined['yhat']).abs()`
followed by `.mean()` — the reported MAE. -/
def maeF (c : List (ℚ × ℚ)) : FVal :=
  pmean (c.map fun p => FVal.fin |p.1 - p.2|)

/-- One entry of `combined['AbsError'] / combined['y']`: NumPy division
of the absolute error by the (signed) actual value. -/
def mapeContrib (p : ℚ × ℚ) : FVal :=
  pdivF |p.1 - p.2| p.1

/-- `(combined['AbsError'] / combined['y']).mean() * 100` — the reported
MAPE. -/
def mapeF (c : List (ℚ × ℚ)) : FVal :=
  (pmean (c.map mapeContrib)).mul100

/-- The three user-visible accuracy messages of the backtest tab. -/
inductive Tier where
  | excellent
  | good
  | poor
deriving DecidableEq

/-- `if mape < 5: ... elif mape < 10: ... else: ...` (lines 216-218). -/
def mapeTier (m : FVal) : Tier :=
  if m.ltc 5 then .excellent else if m.ltc 10 then .good else .poor

/-- The metrics the backtest tab reports. -/
structure BacktestReport where
  mae : FVal
  mape : FVal
  tier : Tier
deriving DecidableEq

/-- Outcome of the backtest tab: either the guard's error message with
nothing else executed, or a report, which also records the exact data
frame `m_bt.fit` was called on. -/
inductive BacktestOutcome where
  | insufficientTrainingData
  | report (fitInput : List TP) (r : BacktestReport)
deriving DecidableEq

/-- The backtest tab, `app.py` lines 194-218.  `train_len` is a Python
integer (may be negative); the guard fires when it is `< 30`, otherwise
the split is `iloc[:train_len]` / `iloc[train_len:]`, the model is
fitted on the training rows only, its predictions (an arbitrary function
`predict` of the training data and the horizon) are inner-joined with the
test rows on `ds`, and MAE/MAPE/tier are computed. -/
def run_backtest (series : List TP) (h : Nat)
    (predict : List TP → Nat → List PredRow) : BacktestOutcome :=
  let train_len : ℤ := (series.length : ℤ) - h
  if train_len < 30 then .insufficientTrainingData
  else
    let tl : Nat := series.length - h
    let trainSet := series.take tl
    let testSet := series.drop tl
    let preds := predict trainSet h
    let c := innerJoin testSet preds
    .report trainSet ⟨maeF c, mapeF c, mapeTier (mapeF c)⟩

/-- A close value as stored in the fetched data frame: an ordinary
finite price, or a non-finite double (`NaN`/`inf`). -/
inductive PVal where
  | fin (q : ℚ)
  | nonfin
deriving DecidableEq

/-- What the script does before and instead of fitting, for a given
close-price column. -/
inductive ForecastPath where
  | emptyWarning
  | headerIndexError
  | modelFitted (train : List PVal)
deriving DecidableEq

/-- Control path of the script from `if data.empty:` (line 127) to
`m.fit(df_train)` (line 170): an empty frame only shows a warning; a
one-row frame raises `IndexError` at `data.iloc[-2]` (line 132) before
any tab runs; otherwise the header arithmetic goes through (non-finite
values propagate through `-`, `/`, `*` without raising) and
`Prophet.fit` is invoked on the full close column, with no further
guard. -/
def app_forecast_path (closes : List PVal) : ForecastPath :=
  if closes.length = 0 then .emptyWarning
  else if closes.length = 1 then .headerIndexError
  else .modelFitted closes

/-- Resolution of a pandas `iloc` integer position against a frame of
`n` rows: a negative position counts from the end; out-of-range
positions raise `IndexError`, modelled as `none`. -/
def ilocIdx (n : Nat) (i : ℤ) : Option Nat :=
  let j : ℤ := if i < 0 then (n : ℤ) + i else i
  if 0 ≤ j ∧ j < n then some j.toNat else none

/-- `data.iloc[-2]['Close']` of the header block (line 132): the
previous close, provided position `-2` is in bounds. -/
def headerPrevClose (closes : List ℚ) : Option ℚ :=
  (ilocIdx closes.length (-2)).bind fun j => closes.get? j

/-- `data['Close'].rolling(window=w).mean()` (lines 118-119, with
`w = 50` and `w = 200`): one output per input row; `none` (pandas `NaN`)
while fewer than `w` rows are available (`min_periods` defaults to the
window size), else the mean of the trailing window of `w` closes. -/
def rollingMean (xs : List ℚ) (w : Nat) : List (Option ℚ) :=
  (List.range xs.length).map fun i =>
    if w ≤ i + 1 then some (((xs.take (i + 1)).drop (i + 1 - w)).sum / w) else none

/-- The spec's words for the SMA value at index `i`: the arithmetic mean
of `close` over indices `[i-w+1, i]`, written here with the window
enumerated index by index (`lo = i - w + 1`). -/
def sliceMean (xs : List ℚ) (lo w : Nat) : ℚ :=
  (((List.range w).map fun k => xs.getD (lo + k) 0).sum) / w

/-- Modelled from the spec: Prophet's `make_future_dataframe(periods=h)`
is external library code (not in this repository); per the spec the
future rows are `h` contiguous calendar days starting the day after the
last historical timestamp, appended to the historical timestamps.
Timestamps are day numbers. -/
def make_future_dataframe (histDates : List ℤ) (h : Nat) : List ℤ :=
  histDates ++ (List.range h).map fun i : ℕ => histDates.getLastD 0 + 1 + (i : ℤ)

/-- Modelled from the spec: `m.predict(future)` (external library)
returns one row per row of the future data frame, in order; `model`
abstracts the fitted model's value at each timestamp.  `run_forecast`
is the forecast tab's pipeline: fit on the full history, predict over
history plus `h` future days. -/
def run_forecast (histDates : List ℤ) (h : Nat) (model : ℤ → ℚ) : List (ℤ × ℚ) :=
  (make_future_dataframe histDates h).map fun d => (d, model d)

/-- Concrete 31-day series whose last close is zero (used to exercise
the MAPE division). -/
def zeroTailSeries : List TP :=
  (List.range 31).map fun i => ⟨(i : ℤ), if i = 30 then 0 else 1⟩

/-- Concrete 31-day series of constant close 1. -/
def onesSeries : List TP :=
  (List.range 31).map fun i => ⟨(i : ℤ), 1⟩

/-- A model that always predicts close 1 for day 30. -/
def constPredict : List TP → Nat → List PredRow := fun _ _ => [⟨30, 1⟩]

/-- A model whose prediction timestamps miss the test window entirely. -/
def disjointPredict : List TP → Nat → List PredRow := fun _ _ => [⟨100, 5⟩]

example : pdivF 1 0 = .posinf := by decide
example : pdivF 0 0 = .nan := by decide
example : pmean [] = .nan := by decide
example : pmean [.fin 1, .fin 3] = .fin 2 := by
  simp [pmean, List.filter, FVal.add, FVal.divNat]
  norm_num
example : pmean [.fin 1, .nan] = .fin 1 := by
  simp [pmean, List.filter, FVal.add, FVal.divNat]
example : mapeF [(0, 1)] = .posinf := by
  simp [mapeF, mapeContrib, pdivF, pmean, List.filter, FVal.add, FVal.divNat, FVal.mul100]
example : mapeF [(2, 1), (2, 3)] = .fin 50 := by
  simp [mapeF, mapeContrib, pdivF, pmean, List.filter, FVal.add, FVal.divNat, FVal.mul100]
  norm_num
example : maeF [(2, 1), (2, 4)] = .fin (3/2) := by
  simp [maeF, pmean, List.filter, FVal.add, FVal.divNat]
  norm_num
example : mapeTier .nan = .poor := by decide
example : app_forecast_path [] = .emptyWarning := by decide
example : headerPrevClose [3] = none := by decide
example : headerPrevClose [3, 4] = some 3 := by decide
example : make_future_dataframe [0, 1, 2] 2 = [0, 1, 2, 3, 4] := by decide

/-- 30-day series of constant close 1 (training length 29 at horizon 1). -/
def thirtySeries : List TP :=
  (List.range 30).map fun i => ⟨(i : ℤ), 1⟩

theorem run_backtest_guard {series : List TP} {h : Nat}
    (hlt : (series.length : ℤ) - h < 30) (predict : List TP → Nat → List PredRow) :
    run_backtest series h predict = .insufficientTrainingData := by
  simp [run_backtest, hlt]

theorem run_backtest_report {series : List TP} {h : Nat}
    (hge : ¬ (series.length : ℤ) - h < 30) (predict : List TP → Nat → List PredRow) :
    run_backtest series h predict =
      .report (series.take (series.length - h))
        ⟨maeF (innerJoin (series.drop (series.length - h))
                (predict (series.take (series.length - h)) h)),
         mapeF (innerJoin (series.drop (series.length - h))
                (predict (series.take (series.length - h)) h)),
         mapeTier (mapeF (innerJoin (series.drop (series.length - h))
                (predict (series.take (series.length - h)) h)))⟩ := by
  simp [run_backtest, hge]

/-- Claim C7: the accuracy tier is "excellent" iff MAPE < 5, "good" iff
5 ≤ MAPE < 10, "poor" iff MAPE ≥ 10; in particular 4.999 is excellent,
5.0 good, 9.999 good, 10.0 poor.  The thresholds are the fixed literals
of lines 216-218, so the tier depends on nothing but the MAPE value. -/
theorem C7_accuracy_tier_thresholds :
    (∀ q : ℚ,
      (mapeTier (.fin q) = .excellent ↔ q < 5) ∧
      (mapeTier (.fin q) = .good ↔ 5 ≤ q ∧ q < 10) ∧
      (mapeTier (.fin q) = .poor ↔ 10 ≤ q)) ∧
    mapeTier (.fin (4999 / 1000)) = .excellent ∧
    mapeTier (.fin 5) = .good ∧
    mapeTier (.fin (9999 / 1000)) = .good ∧
    mapeTier (.fin 10) = .poor := by
  have htier : ∀ q : ℚ, mapeTier (.fin q) =
      if q < 5 then .excellent else if q < 10 then .good else .poor := by
    intro q
    by_cases h5 : q < 5 <;> by_cases h10 : q < 10 <;>
      simp [mapeTier, FVal.ltc, h5, h10]
  refine ⟨fun q => ?_, ?_, ?_, ?_, ?_⟩
  · rw [htier]
    by_cases h5 : q < 5 <;> by_cases h10 : q < 10 <;> simp [h5, h10]
    all_goals linarith
  · rw [htier]; norm_num
  · rw [htier]; norm_num
  · rw [htier]; norm_num
  · rw [htier]; norm_num

theorem ilocIdx_neg2 : ∀ n : Nat, ilocIdx n (-2) = if 2 ≤ n then some (n - 2) else none
  | 0 => by decide
  | 1 => by decide
  | (m + 2) => by
    simp only [ilocIdx]
    rw [if_pos (show ((-2 : ℤ) < 0) by decide)]
    rw [if_pos (show ((0 : ℤ) ≤ ((m + 2 : Nat) : ℤ) + -2 ∧
        ((m + 2 : Nat) : ℤ) + -2 < ((m + 2 : Nat) : ℤ)) from ⟨by push_cast; omega, by push_cast; omega⟩)]
    rw [if_pos (show 2 ≤ m + 2 by omega)]
    congr 1
    omega

theorem headerPrevClose_eq (closes : List ℚ) :
    headerPrevClose closes =
      if 2 ≤ closes.length then closes.get? (closes.length - 2) else none := by
  unfold headerPrevClose
  rw [ilocIdx_neg2]
  split <;> simp

/-- Claim C10: the header block reads `data.iloc[-2]` unconditionally in
the non-empty branch; with exactly one bar that access is out of bounds
(`IndexError`, modelled as `none`), and it is in bounds precisely when
the series has at least 2 bars. -/
theorem C10_header_iloc_bounds (closes : List ℚ) :
    (closes.length = 1 → headerPrevClose closes = none) ∧
    (2 ≤ closes.length → ∃ q, headerPrevClose closes = some q) ∧
    ((headerPrevClose closes).isSome ↔ 2 ≤ closes.length) := by
  refine ⟨fun h1 => ?_, fun h2 => ?_, ?_⟩
  · rw [headerPrevClose_eq, h1]
    simp
  · rw [headerPrevClose_eq, if_pos h2]
    exact ⟨_, List.get?_eq_get (by omega)⟩
  · rw [headerPrevClose_eq]
    by_cases h2 : 2 ≤ closes.length
    · rw [if_pos h2, List.get?_eq_get (by omega)]
      simp [h2]
    · rw [if_neg h2]
      simp [h2]

/-- Witness for C10 at concrete inputs: a one-bar series is out of
bounds, a two-bar series is in bounds. -/
theorem C10_header_iloc_bounds_witness :
    headerPrevClose [3] = none ∧ ∃ q, headerPrevClose [3, 4] = some q :=
  ⟨(C10_header_iloc_bounds [3]).1 (by decide),
   (C10_header_iloc_bounds [3, 4]).2.1 (by decide)⟩

/-- Claim C2: the backtest fails with the insufficient-training-data
error exactly when `len(series) - horizon < 30`; in that case nothing is
fitted (the outcome is the same for every model), and with training
length 29 it fails while training length 30 proceeds to fit and score. -/
theorem C2_training_floor (series : List TP) (h : Nat)
    (predict : List TP → Nat → List PredRow) :
    (run_backtest series h predict = .insufficientTrainingData ↔
      (series.length : ℤ) - h < 30) ∧
    ((series.length : ℤ) - h < 30 →
      ∀ predict2, run_backtest series h predict2 = .insufficientTrainingData) ∧
    ((series.length : ℤ) - h = 29 →
      run_backtest series h predict = .insufficientTrainingData) ∧
    ((series.length : ℤ) - h = 30 →
      ∃ r, run_backtest series h predict = .report (series.take (series.length - h)) r) := by
  refine ⟨⟨fun heq => ?_, fun hlt => run_backtest_guard hlt predict⟩,
    fun hlt p2 => run_backtest_guard hlt p2,
    fun h29 => run_backtest_guard (by omega) predict,
    fun h30 => ⟨_, run_backtest_report (by omega) predict⟩⟩
  by_contra hge
  rw [run_backtest_report hge predict] at heq
  exact BacktestOutcome.noConfusion heq

/-- Witness for C2: with 30 points and horizon 1 (training length 29)
the guard fires; with 31 points and horizon 1 (training length 30) a
report is produced. -/
theorem C2_training_floor_witness :
    run_backtest thirtySeries 1 constPredict = .insufficientTrainingData ∧
    ∃ r, run_backtest onesSeries 1 constPredict =
      .report (onesSeries.take (onesSeries.length - 1)) r :=
  ⟨(C2_training_floor thirtySeries 1 constPredict).2.2.1 (by decide),
   (C2_training_floor onesSeries 1 constPredict).2.2.2 (by decide)⟩

/-- Claim C6: for `h ≤ n` the split withholds exactly the last `h`
points as the test set, uses exactly the first `n - h` as the training
set (concatenating back to the original series), and when the guard
passes, the model recorded in the outcome was fitted on the training set
only. -/
theorem C6_fixed_origin_split (series : List TP) (h : Nat)
    (predict : List TP → Nat → List PredRow) (hle : h ≤ series.length) :
    series.take (series.length - h) ++ series.drop (series.length - h) = series ∧
    (series.take (series.length - h)).length = series.length - h ∧
    (series.drop (series.length - h)).length = h ∧
    (30 ≤ (series.length : ℤ) - h →
      ∃ r, run_backtest series h predict = .report (series.take (series.length - h)) r) := by
  refine ⟨List.take_append_drop _ _, ?_, ?_,
    fun h30 => ⟨_, run_backtest_report (by omega) predict⟩⟩
  · rw [List.length_take]
    omega
  · rw [List.length_drop]
    omega

/-- Witness for C6 on a concrete 31-point series with horizon 1. -/
theorem C6_fixed_origin_split_witness :
    onesSeries.take (onesSeries.length - 1) ++ onesSeries.drop (onesSeries.length - 1) =
      onesSeries ∧
    (onesSeries.take (onesSeries.length - 1)).length = onesSeries.length - 1 ∧
    (onesSeries.drop (onesSeries.length - 1)).length = 1 ∧
    ∃ r, run_backtest onesSeries 1 constPredict =
      .report (onesSeries.take (onesSeries.length - 1)) r :=
  ⟨(C6_fixed_origin_split onesSeries 1 constPredict (by decide)).1,
   (C6_fixed_origin_split onesSeries 1 constPredict (by decide)).2.1,
   (C6_fixed_origin_split onesSeries 1 constPredict (by decide)).2.2.1,
   (C6_fixed_origin_split onesSeries 1 constPredict (by decide)).2.2.2 (by decide)⟩

/-- Claim C3 (amended): an empty series only produces the user warning,
with no fit attempt; a one-point series raises `IndexError` in the
header before any fit; every series with at least two points — finite or
not — is passed to `Prophet.fit` unconditionally (there is no
`InsufficientDataError` guard in the pipeline). -/
theorem C3_forecast_guard (closes : List PVal) :
    (closes = [] → app_forecast_path closes = .emptyWarning) ∧
    (closes.length = 1 → app_forecast_path closes = .headerIndexError) ∧
    (2 ≤ closes.length → app_forecast_path closes = .modelFitted closes) := by
  refine ⟨fun h0 => ?_, fun h1 => ?_, fun h2 => ?_⟩
  · subst h0
    rfl
  · unfold app_forecast_path
    rw [if_neg (by omega), if_pos h1]
  · unfold app_forecast_path
    rw [if_neg (by omega), if_neg (by omega)]

/-- Counterexample to claim C3 as stated: a two-point series containing
a non-finite close value reaches the model fit — `run_forecast` does not
fail with `InsufficientDataError` before invoking the Forecast Model. -/
theorem C3_counterexample :
    app_forecast_path [PVal.fin 1, PVal.nonfin] =
      .modelFitted [PVal.fin 1, PVal.nonfin] := by
  decide

/-- Witness for C3 (amended) at concrete inputs. -/
theorem C3_forecast_guard_witness :
    app_forecast_path [] = .emptyWarning ∧
    app_forecast_path [PVal.fin 5] = .headerIndexError ∧
    app_forecast_path [PVal.fin 5, PVal.fin 6] = .modelFitted [PVal.fin 5, PVal.fin 6] :=
  ⟨(C3_forecast_guard []).1 rfl,
   (C3_forecast_guard [PVal.fin 5]).2.1 (by decide),
   (C3_forecast_guard [PVal.fin 5, PVal.fin 6]).2.2 (by decide)⟩

theorem mem_innerJoin {testSet : List TP} {preds : List PredRow} {yp : ℚ × ℚ}
    (hm : yp ∈ innerJoin testSet preds) :
    ∃ t ∈ testSet, ∃ p ∈ preds, p.ds = t.ds ∧ yp = (t.y, p.yhat) := by
  unfold innerJoin at hm
  obtain ⟨t, ht, hsome⟩ := List.mem_filterMap.mp hm
  obtain ⟨p, hfind, hval⟩ := Option.map_eq_some'.mp hsome
  have hpds := List.find?_some hfind
  exact ⟨t, ht, p, List.mem_of_find?_eq_some hfind,
    of_decide_eq_true hpds, hval.symm⟩

theorem innerJoin_mem_of {testSet : List TP} {preds : List PredRow} {t : TP}
    (ht : t ∈ testSet) (hex : ∃ p ∈ preds, p.ds = t.ds) :
    ∃ p ∈ preds, p.ds = t.ds ∧ (t.y, p.yhat) ∈ innerJoin testSet preds := by
  have hsome : (preds.find? fun p => p.ds = t.ds).isSome := by
    obtain ⟨p, hp, hds⟩ := hex
    exact List.find?_isSome.mpr ⟨p, hp, by simp [hds]⟩
  obtain ⟨p₀, hp₀⟩ := Option.isSome_iff_exists.mp hsome
  have hpds := List.find?_some hp₀
  refine ⟨p₀, List.mem_of_find?_eq_some hp₀, of_decide_eq_true hpds, ?_⟩
  apply List.mem_filterMap.mpr
  exact ⟨t, ht, by rw [hp₀]; rfl⟩

theorem foldl_add_fin (l : List ℚ) (a : ℚ) :
    (l.map FVal.fin).foldl FVal.add (FVal.fin a) = FVal.fin (a + l.sum) := by
  induction l generalizing a with
  | nil => simp
  | cons x xs ih =>
    simp only [List.map_cons, List.foldl_cons, FVal.add, ih, List.sum_cons]
    rw [add_assoc]

theorem filter_map_fin (l : List ℚ) :
    (l.map FVal.fin).filter (· ≠ FVal.nan) = l.map FVal.fin := by
  apply List.filter_eq_self.mpr
  intro a ha
  obtain ⟨x, _, rfl⟩ := List.mem_map.mp ha
  simp

theorem pmean_map_fin (l : List ℚ) (hne : l ≠ []) :
    pmean (l.map FVal.fin) = FVal.fin (l.sum / l.length) := by
  unfold pmean
  rw [filter_map_fin]
  rw [if_neg (by simp [hne])]
  rw [foldl_add_fin]
  simp [FVal.divNat]

theorem maeF_eq (c : List (ℚ × ℚ)) (hne : c ≠ []) :
    maeF c = FVal.fin ((c.map fun p => |p.1 - p.2|).sum / c.length) := by
  unfold maeF
  rw [show (c.map fun p => FVal.fin |p.1 - p.2|) =
      (c.map fun p => |p.1 - p.2|).map FVal.fin by rw [List.map_map]; rfl]
  rw [pmean_map_fin _ (by simp [hne])]
  simp

theorem mapeF_eq (c : List (ℚ × ℚ)) (hne : c ≠ []) (hy : ∀ p ∈ c, p.1 ≠ 0) :
    mapeF c = FVal.fin (100 * ((c.map fun p => |p.1 - p.2| / p.1).sum / c.length)) := by
  unfold mapeF
  have hmap : c.map mapeContrib = (c.map fun p => |p.1 - p.2| / p.1).map FVal.fin := by
    rw [List.map_map]
    apply List.map_congr_left
    intro p hp
    simp [mapeContrib, pdivF, hy p hp]
  rw [hmap, pmean_map_fin _ (by simp [hne])]
  simp [FVal.mul100]

/-- The spec's words for the MAE: the arithmetic mean of the absolute
errors of the aligned pairs. -/
def spec_mae (c : List (ℚ × ℚ)) : ℚ :=
  (c.map fun p => |p.1 - p.2|).sum / c.length

/-- The spec's words for the MAPE: the arithmetic mean of
`absolute_error / |y|`, expressed as a percentage. -/
def spec_mape (c : List (ℚ × ℚ)) : ℚ :=
  100 * ((c.map fun p => |p.1 - p.2| / |p.1|).sum / c.length)

/-- Claim C1: on every non-empty aligned set coming out of the backtest
join (whose actual values are closes, positive by the data model), the
reported MAE is the arithmetic mean of the absolute errors, the reported
MAPE is the arithmetic mean of `absolute_error / |y|` times 100, and
both are nonnegative.  (The code divides by `y`, not `|y|`; under the
positivity of actual closes the two coincide.) -/
theorem C1_backtest_metrics (testSet : List TP) (preds : List PredRow)
    (hne : innerJoin testSet preds ≠ [])
    (hy : ∀ t ∈ testSet, 0 < t.y) :
    maeF (innerJoin testSet preds) = .fin (spec_mae (innerJoin testSet preds)) ∧
    mapeF (innerJoin testSet preds) = .fin (spec_mape (innerJoin testSet preds)) ∧
    0 ≤ spec_mae (innerJoin testSet preds) ∧
    0 ≤ spec_mape (innerJoin testSet preds) := by
  have hpos : ∀ p ∈ innerJoin testSet preds, 0 < p.1 := by
    intro p hp
    obtain ⟨t, ht, p', _, _, hval⟩ := mem_innerJoin hp
    rw [hval]
    exact hy t ht
  refine ⟨?_, ?_, ?_, ?_⟩
  · rw [maeF_eq _ hne]
    rfl
  · rw [mapeF_eq _ hne (fun p hp => ne_of_gt (hpos p hp))]
    unfold spec_mape
    have hmaps : ((innerJoin testSet preds).map fun p => |p.1 - p.2| / |p.1|) =
        (innerJoin testSet preds).map fun p => |p.1 - p.2| / p.1 :=
      List.map_congr_left fun p hp => by rw [abs_of_pos (hpos p hp)]
    rw [hmaps]
  · apply div_nonneg
    · exact List.sum_nonneg (by
        intro x hx
        obtain ⟨p, _, rfl⟩ := List.mem_map.mp hx
        exact abs_nonneg _)
    · exact Nat.cast_nonneg _
  · apply mul_nonneg (by norm_num)
    apply div_nonneg
    · exact List.sum_nonneg (by
        intro x hx
        obtain ⟨p, _, rfl⟩ := List.mem_map.mp hx
        exact div_nonneg (abs_nonneg _) (abs_nonneg _))
    · exact Nat.cast_nonneg _

/-- Witness for C1 at one aligned pair (actual 2, predicted 1). -/
theorem C1_backtest_metrics_witness :
    maeF (innerJoin [⟨0, 2⟩] [⟨0, 1⟩]) = .fin (spec_mae (innerJoin [⟨0, 2⟩] [⟨0, 1⟩])) ∧
    mapeF (innerJoin [⟨0, 2⟩] [⟨0, 1⟩]) = .fin (spec_mape (innerJoin [⟨0, 2⟩] [⟨0, 1⟩])) ∧
    0 ≤ spec_mae (innerJoin [⟨0, 2⟩] [⟨0, 1⟩]) ∧
    0 ≤ spec_mape (innerJoin [⟨0, 2⟩] [⟨0, 1⟩]) :=
  C1_backtest_metrics [⟨0, 2⟩] [⟨0, 1⟩] (by decide) (by decide)

theorem foldl_add_posinf :
    ∀ (l : List FVal), (∀ x ∈ l, (∃ q, x = FVal.fin q) ∨ x = FVal.posinf) →
    ∀ a : FVal, ((∃ q, a = FVal.fin q) ∨ a = FVal.posinf) →
    (FVal.posinf ∈ l ∨ a = FVal.posinf) → l.foldl FVal.add a = FVal.posinf := by
  intro l
  induction l with
  | nil =>
    intro _ a _ hin
    rcases hin with hin | rfl
    · exact absurd hin (List.not_mem_nil _)
    · rfl
  | cons x xs ih =>
    intro hcls a hacls hin
    have hxcls := hcls x (List.mem_cons_self x xs)
    have hxscls : ∀ y ∈ xs, (∃ q, y = FVal.fin q) ∨ y = FVal.posinf :=
      fun y hy => hcls y (List.mem_cons_of_mem x hy)
    rw [List.foldl_cons]
    have hnext : (∃ q, FVal.add a x = FVal.fin q) ∨ FVal.add a x = FVal.posinf := by
      rcases hacls with ⟨qa, rfl⟩ | rfl <;> rcases hxcls with ⟨qx, rfl⟩ | rfl
      · exact Or.inl ⟨qa + qx, rfl⟩
      · exact Or.inr rfl
      · exact Or.inr rfl
      · exact Or.inr rfl
    apply ih hxscls _ hnext
    rcases hin with hmem | rfl
    · rcases List.mem_cons.mp hmem with rfl | hmem'
      · right
        rcases hacls with ⟨qa, rfl⟩ | rfl <;> rfl
      · exact Or.inl hmem'
    · right
      rcases hxcls with ⟨qx, rfl⟩ | rfl <;> rfl

theorem mapeContrib_posinf {p : ℚ × ℚ} (h0 : p.1 = 0) (h2 : p.2 ≠ 0) :
    mapeContrib p = FVal.posinf := by
  have ha : 0 < |p.1 - p.2| := by
    rw [h0, zero_sub, abs_neg, abs_pos]
    exact h2
  unfold mapeContrib pdivF
  rw [if_pos h0, if_neg (ne_of_gt ha), if_pos ha]

/-- Claim C4 (amended): a zero actual value does not make the MAPE
computation fail, nor is the pair skipped: with a nonzero prediction its
contribution is `+inf` and the reported MAPE is `+inf`; only the `0/0`
contribution of a pair that is zero on both sides becomes `NaN`, which
`Series.mean` then drops (all pairs zero on both sides give MAPE
`NaN`). -/
theorem C4_mape_zero_actual (c : List (ℚ × ℚ)) :
    ((∃ p ∈ c, p.1 = 0 ∧ p.2 ≠ 0) → mapeF c = FVal.posinf) ∧
    ((∀ p ∈ c, p.1 = 0 ∧ p.2 = 0) → mapeF c = FVal.nan) := by
  constructor
  · intro hex
    unfold mapeF pmean
    have hcls : ∀ x ∈ (c.map mapeContrib).filter (· ≠ FVal.nan),
        (∃ q, x = FVal.fin q) ∨ x = FVal.posinf := by
      intro x hx
      obtain ⟨hx', hnan⟩ := List.mem_filter.mp hx
      obtain ⟨p, hp, rfl⟩ := List.mem_map.mp hx'
      by_cases h0 : p.1 = 0
      · by_cases h20 : p.2 = 0
        · exfalso
          have : mapeContrib p = FVal.nan := by
            simp [mapeContrib, pdivF, h0, h20]
          rw [this] at hnan
          simp at hnan
        · exact Or.inr (mapeContrib_posinf h0 h20)
      · exact Or.inl ⟨|p.1 - p.2| / p.1, by simp [mapeContrib, pdivF, h0]⟩
    have hmem : FVal.posinf ∈ (c.map mapeContrib).filter (· ≠ FVal.nan) := by
      obtain ⟨p, hp, h0, h2⟩ := hex
      refine List.mem_filter.mpr ⟨List.mem_map.mpr ⟨p, hp, mapeContrib_posinf h0 h2⟩, by simp⟩
    rw [if_neg (by
      intro hempty
      rw [List.isEmpty_iff] at hempty
      rw [hempty] at hmem
      exact absurd hmem (List.not_mem_nil _))]
    rw [foldl_add_posinf _ hcls _ (Or.inl ⟨0, rfl⟩) (Or.inl hmem)]
    rfl
  · intro hall
    unfold mapeF pmean
    have hfil : (c.map mapeContrib).filter (· ≠ FVal.nan) = [] := by
      apply List.filter_eq_nil_iff.mpr
      intro x hx
      obtain ⟨p, hp, rfl⟩ := List.mem_map.mp hx
      obtain ⟨h0, h20⟩ := hall p hp
      simp [mapeContrib, pdivF, h0, h20]
    rw [hfil]
    rfl

/-- Counterexample to claim C4 as stated: a backtest run whose aligned
set holds the single pair (actual 0, predicted 1) neither fails with a
`DivisionByZeroError` nor skips the pair — the unguarded division is
propagated and the reported MAPE is `+inf` (tier "poor"). -/
theorem C4_counterexample :
    run_backtest zeroTailSeries 1 constPredict =
      .report (zeroTailSeries.take 30) ⟨.fin 1, .posinf, .poor⟩ := by
  rw [run_backtest_report (by decide) constPredict]
  have hj : innerJoin (zeroTailSeries.drop (zeroTailSeries.length - 1))
      (constPredict (zeroTailSeries.take (zeroTailSeries.length - 1)) 1) =
      [((0 : ℚ), (1 : ℚ))] := by decide
  rw [hj]
  have hlen : zeroTailSeries.length - 1 = 30 := by decide
  rw [hlen]
  have hmae : maeF [((0 : ℚ), (1 : ℚ))] = .fin 1 := by
    simp [maeF, pmean, List.filter, FVal.add, FVal.divNat]
  have hmape : mapeF [((0 : ℚ), (1 : ℚ))] = .posinf := by
    simp [mapeF, mapeContrib, pdivF, pmean, List.filter, FVal.add, FVal.divNat, FVal.mul100]
  rw [hmae, hmape]
  rfl

/-- Witness for C4 (amended) at one-pair aligned sets. -/
theorem C4_mape_zero_actual_witness :
    mapeF [((0 : ℚ), (1 : ℚ))] = FVal.posinf ∧
    mapeF [((0 : ℚ), (0 : ℚ))] = FVal.nan :=
  ⟨(C4_mape_zero_actual [(0, 1)]).1 ⟨(0, 1), by decide, rfl, by norm_num⟩,
   (C4_mape_zero_actual [(0, 0)]).2 (by decide)⟩

/-- Claim C5 (amended): the aligned set is the inner join on timestamps
— a pair is scored exactly when its timestamp occurs in both the test
set and the prediction set — but an empty aligned set does not fail with
`NoOverlapError`: the run still produces a report, whose MAE and MAPE
are `NaN` (pandas mean of an empty series) and whose tier is "poor". -/
theorem C5_inner_join_alignment (testSet : List TP) (preds : List PredRow) :
    (∀ yp ∈ innerJoin testSet preds,
      ∃ t ∈ testSet, ∃ p ∈ preds, p.ds = t.ds ∧ yp = (t.y, p.yhat)) ∧
    (∀ t ∈ testSet, (∃ p ∈ preds, p.ds = t.ds) →
      ∃ p ∈ preds, p.ds = t.ds ∧ (t.y, p.yhat) ∈ innerJoin testSet preds) ∧
    (∀ (series : List TP) (h : Nat) (predict : List TP → Nat → List PredRow),
      ¬ (series.length : ℤ) - h < 30 →
      innerJoin (series.drop (series.length - h))
        (predict (series.take (series.length - h)) h) = [] →
      run_backtest series h predict =
        .report (series.take (series.length - h)) ⟨.nan, .nan, .poor⟩) := by
  refine ⟨fun yp hyp => mem_innerJoin hyp,
    fun t ht hex => innerJoin_mem_of ht hex,
    fun series h predict hge hempty => ?_⟩
  rw [run_backtest_report hge predict, hempty]
  rfl

/-- Counterexample to claim C5 as stated: predictions that share no
timestamp with the test set still yield a report (`NaN` metrics, tier
"poor") instead of a `NoOverlapError`. -/
theorem C5_counterexample :
    run_backtest onesSeries 1 disjointPredict =
      .report (onesSeries.take 30) ⟨.nan, .nan, .poor⟩ := by
  rw [run_backtest_report (by decide) disjointPredict]
  have hj : innerJoin (onesSeries.drop (onesSeries.length - 1))
      (disjointPredict (onesSeries.take (onesSeries.length - 1)) 1) = [] := by decide
  rw [hj]
  have hlen : onesSeries.length - 1 = 30 := by decide
  rw [hlen]
  rfl

/-- Witness for C5 (amended): a matching timestamp is scored; a run with
no overlap produces the `NaN` report. -/
theorem C5_inner_join_alignment_witness :
    (∃ p ∈ [(⟨5, 7⟩ : PredRow)], p.ds = (⟨5, 1⟩ : TP).ds ∧
      ((⟨5, 1⟩ : TP).y, p.yhat) ∈ innerJoin [⟨5, 1⟩] [⟨5, 7⟩]) ∧
    run_backtest onesSeries 1 disjointPredict =
      .report (onesSeries.take (onesSeries.length - 1)) ⟨.nan, .nan, .poor⟩ :=
  ⟨(C5_inner_join_alignment [⟨5, 1⟩] [⟨5, 7⟩]).2.1 ⟨5, 1⟩ (by decide)
      ⟨⟨5, 7⟩, by decide, rfl⟩,
   (C5_inner_join_alignment [] []).2.2 onesSeries 1 disjointPredict
      (by decide) (by decide)⟩

theorem getLastD_mem_of_ne_nil : ∀ (l : List ℤ) (d : ℤ), l ≠ [] → l.getLastD d ∈ l := by
  intro l
  induction l with
  | nil => intro d hne; exact absurd rfl hne
  | cons x xs ih =>
    intro d _
    rw [List.getLastD_cons]
    rcases eq_or_ne xs [] with rfl | hne
    · simp
    · exact List.mem_cons_of_mem x (ih x hne)

theorem le_getLastD_sorted : ∀ (l : List ℤ) (d : ℤ), l.Pairwise (· < ·) →
    ∀ a ∈ l, a ≤ l.getLastD d := by
  intro l
  induction l with
  | nil => intro d _ a ha; exact absurd ha (List.not_mem_nil a)
  | cons x xs ih =>
    intro d hp a ha
    rw [List.getLastD_cons]
    obtain ⟨hx, hxs⟩ := List.pairwise_cons.mp hp
    rcases List.mem_cons.mp ha with rfl | hmem
    · rcases eq_or_ne xs [] with rfl | hne
      · simp
      · exact le_of_lt (hx _ (getLastD_mem_of_ne_nil xs a hne))
    · exact ih x hxs a hmem

/-- Claim C8: for every valid input series of timestamps and horizon
`h ≥ 1`, the forecast output has length `input length + h`, its
timestamps are strictly ascending, and the future part consists of `h`
contiguous calendar days starting the day after the last historical
timestamp.  (Prophet's `make_future_dataframe`/`predict` are external
library code, modelled here from the spec's description.) -/
theorem C8_forecast_output (histDates : List ℤ) (h : Nat) (model : ℤ → ℚ)
    (hne : histDates ≠ []) (hsort : histDates.Pairwise (· < ·)) (hh : 1 ≤ h) :
    (run_forecast histDates h model).length = histDates.length + h ∧
    ((run_forecast histDates h model).map Prod.fst).Pairwise (· < ·) ∧
    ((run_forecast histDates h model).map Prod.fst).drop histDates.length =
      (List.range h).map fun i : ℕ => histDates.getLastD 0 + 1 + (i : ℤ) := by
  have hfst : (run_forecast histDates h model).map Prod.fst =
      make_future_dataframe histDates h := by
    unfold run_forecast
    rw [List.map_map]
    exact List.map_id _
  refine ⟨?_, ?_, ?_⟩
  · unfold run_forecast make_future_dataframe
    simp
  · rw [hfst]
    unfold make_future_dataframe
    apply List.pairwise_append.mpr
    refine ⟨hsort, ?_, ?_⟩
    · exact (List.pairwise_lt_range h).map _ (fun a b hab => by omega)
    · intro a ha b hb
      obtain ⟨i, _, rfl⟩ := List.mem_map.mp hb
      have hle : a ≤ histDates.getLastD 0 := le_getLastD_sorted histDates 0 hsort a ha
      omega
  · rw [hfst]
    unfold make_future_dataframe
    rw [List.drop_left]

/-- Witness for C8 on the three-day history `[0, 1, 2]` with horizon 2. -/
theorem C8_forecast_output_witness :
    (run_forecast [0, 1, 2] 2 fun _ => (0 : ℚ)).length = ([0, 1, 2] : List ℤ).length + 2 ∧
    ((run_forecast [0, 1, 2] 2 fun _ => (0 : ℚ)).map Prod.fst).Pairwise (· < ·) ∧
    ((run_forecast [0, 1, 2] 2 fun _ => (0 : ℚ)).map Prod.fst).drop
        ([0, 1, 2] : List ℤ).length =
      (List.range 2).map (fun i : ℕ => ([0, 1, 2] : List ℤ).getLastD 0 + 1 + (i : ℤ)) :=
  C8_forecast_output [0, 1, 2] 2 (fun _ => (0 : ℚ)) (by decide) (by decide) (by decide)

theorem window_slice_eq (xs : List ℚ) (lo w : Nat) (hle : lo + w ≤ xs.length) :
    (xs.drop lo).take w = (List.range w).map fun k => xs.getD (lo + k) 0 := by
  apply List.ext_getElem
  · rw [List.length_take, List.length_drop, List.length_map, List.length_range]
    omega
  · intro i h1 h2
    rw [List.length_take, List.length_drop] at h1
    rw [List.length_map, List.length_range] at h2
    rw [List.getElem_take, List.getElem_drop, List.getElem_map, List.getElem_range,
      List.getD_eq_getElem?_getD, List.getElem?_eq_getElem (by omega)]
    rfl

/-- Claim C9: the rolling SMA is a pure function of its inputs; its
value at index `i` is the arithmetic mean of `close` over indices
`[i-w+1, i]` whenever `i ≥ w-1` (and `i` is in range), is undefined
(`NaN`) for `i < w-1`, and when `w` exceeds the series length every
output value is undefined, with no error. -/
theorem C9_rolling_sma (xs : List ℚ) (w : Nat) (hw : 1 ≤ w) :
    (rollingMean xs w).length = xs.length ∧
    (∀ i, i < xs.length → w ≤ i + 1 →
      (rollingMean xs w).get? i = some (some (sliceMean xs (i + 1 - w) w))) ∧
    (∀ i, i < xs.length → i + 1 < w →
      (rollingMean xs w).get? i = some none) ∧
    (xs.length < w → ∀ v ∈ rollingMean xs w, v = none) := by
  refine ⟨?_, ?_, ?_, ?_⟩
  · unfold rollingMean
    rw [List.length_map, List.length_range]
  · intro i hi hwi
    unfold rollingMean
    rw [List.get?_eq_getElem?, List.getElem?_map, List.getElem?_range hi,
      Option.map_some']
    rw [if_pos hwi]
    have hwnd : (xs.take (i + 1)).drop (i + 1 - w) =
        (List.range w).map fun k => xs.getD ((i + 1 - w) + k) 0 := by
      rw [← window_slice_eq xs (i + 1 - w) w (by omega), List.take_drop]
      congr 2
      omega
    rw [hwnd]
    rfl
  · intro i hi hwi
    unfold rollingMean
    rw [List.get?_eq_getElem?, List.getElem?_map, List.getElem?_range hi,
      Option.map_some']
    rw [if_neg (by omega)]
  · intro hlen v hv
    unfold rollingMean at hv
    obtain ⟨i, hi, rfl⟩ := List.mem_map.mp hv
    have hilt : i < xs.length := List.mem_range.mp hi
    rw [if_neg (by omega)]

/-- Witness for C9: window 2 over `[1, 3]` (defined at index 1,
undefined at index 0) and window 2 over the one-point series `[1]`
(everything undefined). -/
theorem C9_rolling_sma_witness :
    (rollingMean [(1 : ℚ), 3] 2).get? 1 = some (some (sliceMean [(1 : ℚ), 3] 0 2)) ∧
    (rollingMean [(1 : ℚ), 3] 2).get? 0 = some none ∧
    ∀ v ∈ rollingMean [(1 : ℚ)] 2, v = none :=
  ⟨(C9_rolling_sma [1, 3] 2 (by decide)).2.1 1 (by decide) (by decide),
   (C9_rolling_sma [1, 3] 2 (by decide)).2.2.1 0 (by decide) (by decide),
   (C9_rolling_sma [1] 2 (by decide)).2.2.2 (by decide)⟩
